import Mathlib

/-!
Shallow embedding of the easyupoo extension core (content.js, popup.js):
the persistent TTL/LRU cache, the platform price selection, the agent fee
and currency conversion arithmetic, and the cache import paths.

Timestamps are modelled as `Int` (JavaScript epoch milliseconds), prices and
rates as `Rat` (exact readings of the numeric literals in the source; the
source computes with IEEE-754 doubles, and where that difference matters it
is called out at the corresponding theorem). JavaScript `Map` objects are
modelled as insertion-ordered association lists with unique keys; `null` and
`undefined` become `Option`. JavaScript truthiness tests on stored payloads
are modelled by an explicit `truthy : V → Bool` parameter, and on strings by
`jsTruthyStr` (both `null` and the empty string are falsy).
-/

namespace Easyupoo

/-- CACHE_CONFIG (content.js lines 76-80). -/
structure CacheConfig where
  version : String
  maxAge : Int
  maxItems : Nat
deriving Repr, DecidableEq

/-- The literal configuration object from content.js. -/
def CACHE_CONFIG : CacheConfig :=
  { version := "1.0.0", maxAge := 7 * 24 * 60 * 60 * 1000, maxItems := 1000 }

/-- One platform record of PLATFORM_CONFIG.platforms (content.js lines 25-34). -/
structure PlatformInfo where
  baseUrl : String
  priority : Nat
deriving Repr, DecidableEq

/-- PLATFORM_CONFIG.platforms as the insertion-ordered association list of the
object literal (content.js lines 25-34). -/
def PLATFORM_CONFIG_platforms : List (String × PlatformInfo) :=
  [("taobao", { baseUrl := "https://www.jadeship.com/item/taobao/", priority := 1 }),
   ("weidian", { baseUrl := "https://www.jadeship.com/item/weidian/", priority := 2 })]

/-- JavaScript truthiness of a nullable string: null/undefined and the empty
string are falsy, every other string is truthy. -/
def jsTruthyStr : Option String → Bool
  | none => false
  | some s => !(s = "")

/-- Model of the JavaScript toLowerCase() call: lower-case each character of
the string. Evaluates structurally over the character list, so concrete
instances reduce inside the kernel. -/
def jsToLower (s : String) : String :=
  String.mk (s.data.map Char.toLower)

/-! ## Currency conversion (content.js lines 123-131) -/

/-- Model of Number(x.toFixed(2)) under exact rational arithmetic: round to
two decimal places, halves away from zero for nonnegative inputs. The claims
below do not depend on the tie-breaking details of this rounding. -/
def toFixed2 (x : Rat) : Rat :=
  ((⌊x * 100 + 1 / 2⌋ : Int) : Rat) / 100

set_option linter.unusedVariables false in
/-- convertCurrency (content.js lines 123-131). CURRENCY_CACHE.rates is the
nullable CNY-based rate table (a JavaScript object, modelled as an association
list); a missing or falsy (zero) rate for the target returns the amount
unchanged. The fromCurrency argument appears in the source parameter list but
is never read in the body. -/
def convertCurrency (rates : Option (List (String × Rat))) (amount : Rat)
    (fromCurrency toCurrency : String) : Rat :=
  match rates with
  | none => amount
  | some table =>
    match table.lookup (jsToLower toCurrency) with
    | none => amount
    | some rate => if rate = 0 then amount else toFixed2 (amount * rate)

/-! ## Agent fees (content.js lines 651-665) -/

/-- calculateAgentFee (content.js lines 651-665), read over exact rationals:
the source multiplies IEEE-754 doubles, so its superbuy branch actually
produces the double 102.38000000000001 at price 100 rather than the 102.38
documented in its own JSDoc example; this definition keeps the literals
exact. -/
def calculateAgentFee (price : Rat) (agent : String) : Rat :=
  if jsToLower agent = "superbuy" then price * 1.0238
  else if jsToLower agent = "cssbuy" then price * 1.02
  else if jsToLower agent = "allchinabuy" then price * 1.04
  else price * 1.03

/-! ## Platform price selection (content.js lines 493-511) -/

/-- One entry of the prices object built in fetchProductDetails
(content.js lines 585-588): a price string (with "N/A" as the unavailable
sentinel) and a nullable link. -/
structure PlatformData where
  price : String
  link : Option String
deriving Repr, DecidableEq

/-- The prices object passed to selectPlatformPrice: one record per platform,
in the insertion order taobao then weidian (content.js lines 585-588). -/
structure Prices where
  taobao : PlatformData
  weidian : PlatformData
deriving Repr, DecidableEq

/-- An element of the availablePrices array (content.js lines 496-502):
the platform name, the spread price data, and the configured priority. -/
structure AvailablePrice where
  platform : String
  price : String
  link : Option String
  priority : Nat
deriving Repr, DecidableEq

/-- Result shape of selectPlatformPrice: either an availablePrices element
(with platform and priority fields) or a raw prices-object entry returned
verbatim by the fallback branch. -/
inductive SelectedPrice where
  | available (p : AvailablePrice)
  | fallback (p : PlatformData)
deriving Repr, DecidableEq

/-- Object.entries(prices) in the insertion order of the literal. -/
def platformEntries (prices : Prices) : List (String × PlatformData) :=
  [("taobao", prices.taobao), ("weidian", prices.weidian)]

/-- The filter predicate of content.js line 497: price !== "N/A" && data.link. -/
def isAvailable (d : PlatformData) : Bool :=
  !(d.price = "N/A") && jsTruthyStr d.link

/-- Lookup of platforms[platform].priority; every key fed to it comes from
the two literal keys of PLATFORM_CONFIG_platforms. -/
def priorityOf (platform : String) : Nat :=
  ((PLATFORM_CONFIG_platforms.lookup platform).map PlatformInfo.priority).getD 0

/-- The availablePrices array (content.js lines 496-502). -/
def availablePrices (prices : Prices) : List AvailablePrice :=
  ((platformEntries prices).filter (fun e => isAvailable e.2)).map
    (fun e => { platform := e.1, price := e.2.price, link := e.2.link,
                priority := priorityOf e.1 })

/-- selectPlatformPrice (content.js lines 493-511). The sorts model the two
JavaScript numeric-comparator sorts zipped to their boolean orders; the
fallback branch computes the platform key of lowest priority and returns
that entry of the prices object verbatim (the || default of line 507 is
unreachable because the prices object always carries both keys). -/
def selectPlatformPrice (prices : Prices) : SelectedPrice :=
  let avail := availablePrices prices
  if avail.length = 0 then
    let highestPriority :=
      ((((PLATFORM_CONFIG_platforms).mergeSort
          (fun a b => a.2.priority ≤ b.2.priority)).head?.map Prod.fst).getD "taobao")
    SelectedPrice.fallback
      (if highestPriority = "taobao" then prices.taobao else prices.weidian)
  else
    match (avail.mergeSort (fun a b => a.priority ≤ b.priority)).head? with
    | some best => SelectedPrice.available best
    | none => SelectedPrice.fallback { price := "N/A", link := none }

/-! ## The persistent cache (content.js lines 172-303)

The JavaScript Map backing PersistentCache.data is modelled as an
insertion-ordered association list with unique keys (the uniqueness invariant
of a real Map is taken as a hypothesis where a proof needs it). -/

/-- A cache entry as built by PersistentCache.set (content.js lines 247-251). -/
structure CacheEntry (V : Type) where
  data : V
  timestamp : Int
  lastAccessed : Int
deriving Repr, DecidableEq

/-- The Map backing PersistentCache.data. -/
abbrev CacheMap (V : Type) := List (String × CacheEntry V)

/-- Map.prototype.set: replace in place when the key exists, else append. -/
def mapSet {V : Type} (key : String) (entry : CacheEntry V) : CacheMap V → CacheMap V
  | [] => [(key, entry)]
  | (k, e) :: rest =>
    if k = key then (k, entry) :: rest else (k, e) :: mapSet key entry rest

/-- isValidCacheEntry (content.js lines 222-227): the entry object itself is
handled by Option at the call sites; the remaining JavaScript conjunction
tests truthiness of entry.timestamp (nonzero), the age bound, and truthiness
of entry.data (through the explicit truthy parameter). -/
def isValidCacheEntry {V : Type} (truthy : V → Bool) (now : Int)
    (entry : CacheEntry V) : Bool :=
  !(entry.timestamp = 0) && (now - entry.timestamp < CACHE_CONFIG.maxAge)
    && truthy entry.data

/-- PersistentCache.get (content.js lines 233-242), after initialization has
completed: returns the payload of a present-and-valid entry, refreshing its
lastAccessed timestamp in place, and null (none) otherwise. -/
def PersistentCache.get {V : Type} (truthy : V → Bool) (now : Int)
    (m : CacheMap V) (key : String) : Option V × CacheMap V :=
  match m.lookup key with
  | some entry =>
    if isValidCacheEntry truthy now entry then
      (some entry.data, mapSet key { entry with lastAccessed := now } m)
    else (none, m)
  | none => (none, m)

/-- PersistentCache.set (content.js lines 244-255), after initialization:
stores a brand-new entry with fresh timestamps (persistence to storage is
modelled at the call sites that need it). -/
def PersistentCache.set {V : Type} (now : Int) (m : CacheMap V) (key : String)
    (value : V) : CacheMap V :=
  mapSet key { data := value, timestamp := now, lastAccessed := now } m

/-- Phase 1 of PersistentCache.cleanup (content.js lines 270-275): delete
every invalid entry while iterating the map. -/
def cleanupPhase1 {V : Type} (truthy : V → Bool) (now : Int) (m : CacheMap V) :
    CacheMap V :=
  m.filter (fun kv => isValidCacheEntry truthy now kv.2)

/-- The sort order of content.js line 279: the numeric comparator
of sort((a, b) with value b[1].lastAccessed - a[1].lastAccessed, which orders
by lastAccessed descending. -/
def lastAccessedDesc {V : Type} (a b : String × CacheEntry V) : Bool :=
  b.2.lastAccessed ≤ a.2.lastAccessed

/-- PersistentCache.cleanup (content.js lines 266-294). Phase 2 (lines
277-286) sorts the surviving entries by lastAccessed descending and then
repeatedly pops the tail of the sorted array, deleting that key from the
map, until the size is within maxItems; since the keys of a Map are unique,
the loop deletes exactly the keys appearing beyond position maxItems of the
sorted array, which is how it is written here. -/
def PersistentCache.cleanup {V : Type} (truthy : V → Bool) (now : Int)
    (m : CacheMap V) : CacheMap V :=
  let m1 := cleanupPhase1 truthy now m
  if m1.length > CACHE_CONFIG.maxItems then
    let sortedEntries := m1.mergeSort lastAccessedDesc
    let keysToDelete := (sortedEntries.drop CACHE_CONFIG.maxItems).map Prod.fst
    m1.filter (fun kv => !(keysToDelete.contains kv.1))
  else m1

/-! ## Durable storage and initialization (content.js lines 179-220, 296-303)

chrome.storage.local is modelled by the two records the cache uses; the
asynchronous storage calls that initialize awaits can each reject, which is
modelled by per-call failure flags in the environment. persistToStorage
(lines 257-264) catches its own errors, so only the metadata read, the
remove inside clearCache, the productCache read and the final metadata write
can throw into the catch block of initialize. -/

/-- The cacheMetadata record (content.js lines 184-187). -/
structure CacheMetadata where
  version : String
  lastCleanup : Int
deriving Repr, DecidableEq

/-- The slice of chrome.storage.local the cache owns. -/
structure Storage (V : Type) where
  productCache : Option (CacheMap V)
  cacheMetadata : Option CacheMetadata
deriving Repr, DecidableEq

/-- One run of initialize: the storage state it starts from plus which of the
four awaited storage calls rejects. -/
structure InitEnv (V : Type) where
  store : Storage V
  metadataReadFails : Bool
  removeFails : Bool
  productReadFails : Bool
  metadataWriteFails : Bool
  persistFails : Bool
deriving Repr, DecidableEq

/-- Observable outcome of one initialize run: the in-memory map, the
initialized flag, the storage left behind, and whether the final
set(cacheMetadata) call completed. -/
structure InitResult (V : Type) where
  data : CacheMap V
  initialized : Bool
  store : Storage V
  metadataPersisted : Bool
deriving Repr, DecidableEq

set_option linter.unusedVariables false in
/-- PersistentCache.clearCache (content.js lines 296-303): empty the
in-memory map and remove both persisted records regardless of their prior
contents. -/
def PersistentCache.clearCache {V : Type} (st : Storage V) :
    CacheMap V × Storage V :=
  ([], { productCache := none, cacheMetadata := none })

/-- The cleanup call inside initialize (content.js line 206): cleanup
persists the map only when it deleted something (deleted is positive exactly
when the map shrank, keys being unique), and persistToStorage swallows its
own errors. -/
def cleanupAndPersist {V : Type} (truthy : V → Bool) (now : Int)
    (d : CacheMap V) (st : Storage V) (persistFails : Bool) :
    CacheMap V × Storage V :=
  let d2 := PersistentCache.cleanup truthy now d
  if d2.length < d.length && !persistFails then
    (d2, { st with productCache := some d2 })
  else (d2, st)

/-- Tail of initialize (content.js lines 210-219): persist the refreshed
metadata record and mark the cache initialized; if the write rejects, the
catch block only marks the cache initialized. -/
def finishInitialize {V : Type} (data1 : CacheMap V) (st1 : Storage V)
    (meta1 : CacheMetadata) (env : InitEnv V) : InitResult V :=
  if env.metadataWriteFails then
    { data := data1, initialized := true, store := st1, metadataPersisted := false }
  else
    { data := data1, initialized := true,
      store := { st1 with cacheMetadata := some meta1 }, metadataPersisted := true }

/-- Middle of initialize (content.js lines 194-219), after the version check:
load the persisted entries, keeping only those passing the validity
predicate, run the daily cleanup sweep when due, then finish. The
currentMetadata argument already carries the corrected version; st is the
storage state after a possible clear. -/
def initializeRest {V : Type} (truthy : V → Bool) (now : Int)
    (currentMetadata : CacheMetadata) (st : Storage V) (env : InitEnv V) :
    InitResult V :=
  if env.productReadFails then
    { data := [], initialized := true, store := st, metadataPersisted := false }
  else
    let data0 := match st.productCache with
      | some stored => stored.filter (fun kv => isValidCacheEntry truthy now kv.2)
      | none => []
    if now - currentMetadata.lastCleanup > 24 * 60 * 60 * 1000 then
      let pr := cleanupAndPersist truthy now data0 st env.persistFails
      finishInitialize pr.1 pr.2 { currentMetadata with lastCleanup := now } env
    else
      finishInitialize data0 st currentMetadata env

/-- PersistentCache.initialize (content.js lines 179-220) for a fresh
instance (this.data empty, this.initialized false). Each failing await jumps
to the catch block, which logs and marks the cache initialized, leaving
whatever mutations already happened in place. -/
def PersistentCache.initializeRun {V : Type} (truthy : V → Bool) (now : Int)
    (env : InitEnv V) : InitResult V :=
  if env.metadataReadFails then
    { data := [], initialized := true, store := env.store, metadataPersisted := false }
  else
    let currentMetadata := env.store.cacheMetadata.getD
      { version := CACHE_CONFIG.version, lastCleanup := now }
    if currentMetadata.version ≠ CACHE_CONFIG.version then
      if env.removeFails then
        { data := [], initialized := true, store := env.store, metadataPersisted := false }
      else
        initializeRest truthy now
          { version := CACHE_CONFIG.version, lastCleanup := currentMetadata.lastCleanup }
          (PersistentCache.clearCache env.store).2 env
    else
      initializeRest truthy now currentMetadata env.store env

/-! ## Cache import (popup.js lines 141-172 and content.js lines 1373-1403)

Both import handlers parse the chosen file to a value with optional version
and items fields, and report any thrown error to the user through alert. -/

/-- A parsed cache export file: either field may be missing. -/
structure ImportData (V : Type) where
  version : Option String
  items : Option (CacheMap V)
deriving Repr, DecidableEq

/-- Whether the user ends up seeing the failure alert. -/
inductive ImportOutcome where
  | success
  | errorReported
deriving Repr, DecidableEq

/-- Outcome of the popup import: the storage written and whether an error
was alerted. -/
structure PopupImportResult (V : Type) where
  store : Storage V
  outcome : ImportOutcome
deriving Repr, DecidableEq

/-- importCache from popup.js (lines 141-172): reject only when version or
items is missing or falsy, else overwrite both persisted records with the
file contents without comparing the version to the running one. -/
def popupImportCache {V : Type} (now : Int) (data : ImportData V)
    (st : Storage V) : PopupImportResult V :=
  if !(jsTruthyStr data.version) || data.items.isNone then
    { store := st, outcome := ImportOutcome.errorReported }
  else
    { store := { productCache := data.items,
                 cacheMetadata := some { version := data.version.getD "",
                                         lastCleanup := now } },
      outcome := ImportOutcome.success }

/-- Outcome of the content-script import: the in-memory map, the storage and
whether an error was alerted. -/
structure ContentImportResult (V : Type) where
  data : CacheMap V
  store : Storage V
  outcome : ImportOutcome
deriving Repr, DecidableEq

/-- importCache from the settings popup in content.js (lines 1373-1403):
a version strictly different from the running one (including a missing
version) throws before anything is touched; otherwise the cache is cleared
first, and only then are the file items iterated — so when items is missing,
Object.entries(undefined) throws after the clear and the catch block reports
the error with the cache already emptied. Each imported entry is re-created
through set with fresh timestamps and persisted. -/
def contentImportCache {V : Type} (now : Int) (file : ImportData V)
    (m : CacheMap V) (st : Storage V) : ContentImportResult V :=
  if !(file.version == some CACHE_CONFIG.version) then
    { data := m, store := st, outcome := ImportOutcome.errorReported }
  else
    match file.items with
    | none =>
      { data := (PersistentCache.clearCache st).1,
        store := (PersistentCache.clearCache st).2,
        outcome := ImportOutcome.errorReported }
    | some items =>
      let final := items.foldl
        (fun acc kv => PersistentCache.set now acc kv.1 kv.2.data)
        (PersistentCache.clearCache st).1
      { data := final,
        store := { productCache := some final, cacheMetadata := none },
        outcome := ImportOutcome.success }

/-! ## Product detail resolution (content.js lines 564-621)

fetchProductDetails races the page fetch against a 10 second timeout, parses
the page, and queries each matched platform through the background proxy;
the outcomes of those external steps form the environment below. A rejected
promise anywhere in the body lands in the catch block. -/

/-- What the page and the secondary lookups yielded for one platform: the
regex-matched link text, the product id extracted from it, and the price
span text from the proxy response (none when the proxy call failed, the
response was unsuccessful, or the document had no price node). -/
structure PlatformFetch where
  link : String
  productId : Option String
  priceText : Option String
deriving Repr, DecidableEq

/-- The resolved outcome of the raced page fetch: failed covers the timeout
winning the race, a rejected fetch, and a body read or parse throw; ok
carries the per-platform regex match results (none when the pattern did not
match). -/
inductive PageFetch where
  | failed
  | ok (taobaoMatch : Option PlatformFetch) (weidianMatch : Option PlatformFetch)
deriving Repr, DecidableEq

/-- fetchPriceForPlatform (content.js lines 590-609) acting on one platform
slot initialized to price "N/A" and no link: when an id is extracted the
link is recorded, and the price becomes the span text when present and
nonempty (the || fallback) and stays "N/A" otherwise; per-platform errors
are caught in place. -/
def fetchPriceForPlatform (slot : PlatformData) (f : PlatformFetch) :
    PlatformData :=
  match f.productId with
  | none => slot
  | some _ =>
    { link := some f.link,
      price := match f.priceText with
               | some t => if t = "" then "N/A" else t
               | none => "N/A" }

/-- The try body of fetchProductDetails (content.js lines 569-616): build
the prices object, run both platform queries, and select. An error result
models a rejection reaching the catch block. -/
def fetchProductDetailsBody (env : PageFetch) : Except Unit SelectedPrice :=
  match env with
  | PageFetch.failed => Except.error ()
  | PageFetch.ok tm wm =>
    let init : PlatformData := { price := "N/A", link := none }
    let taobaoRes := match tm with
      | none => init
      | some f => fetchPriceForPlatform init f
    let weidianRes := match wm with
      | none => init
      | some f => fetchPriceForPlatform init f
    Except.ok (selectPlatformPrice { taobao := taobaoRes, weidian := weidianRes })

/-- fetchProductDetails (content.js lines 564-621): the catch block converts
any rejection into the well-formed value with price "N/A" and no link, so
the function itself never rejects. -/
def fetchProductDetails (env : PageFetch) : Except Unit SelectedPrice :=
  match fetchProductDetailsBody env with
  | Except.ok v => Except.ok v
  | Except.error _ =>
    Except.ok (SelectedPrice.fallback { price := "N/A", link := none })

/-! ## Helper lemmas -/

theorem mergeSort_pair {α : Type} (le : α → α → Bool) (a b : α) :
    [a, b].mergeSort le = if le a b then [a, b] else [b, a] := by
  rw [List.mergeSort]
  simp [List.splitInTwo, List.mergeSort, List.merge]

theorem length_filter_mem {α : Type} [DecidableEq α] (l D : List α)
    (hl : l.Nodup) (hD : D.Nodup) (hsub : ∀ x ∈ D, x ∈ l) :
    (l.filter (fun x => D.contains x)).length = D.length := by
  have h1 : (l.filter (fun x => D.contains x)).Nodup := hl.filter _
  have h2 : ∀ x, x ∈ l.filter (fun x => D.contains x) ↔ x ∈ D := by
    intro x
    simp only [List.mem_filter, List.elem_iff]
    exact ⟨fun hx => hx.2, fun hx => ⟨hsub x hx, hx⟩⟩
  exact ((List.perm_ext_iff_of_nodup h1 hD).mpr h2).length_eq

theorem keysNodup_filter {V : Type} (p : String × CacheEntry V → Bool)
    (m : CacheMap V) (h : (m.map Prod.fst).Nodup) :
    ((m.filter p).map Prod.fst).Nodup :=
  List.Nodup.sublist (List.Sublist.map Prod.fst (List.filter_sublist m)) h

/-- Transitivity of the descending lastAccessed order. -/
theorem lastAccessedDesc_trans {V : Type} (a b c : String × CacheEntry V) :
    lastAccessedDesc a b → lastAccessedDesc b c → lastAccessedDesc a c := by
  simp only [lastAccessedDesc, decide_eq_true_eq]
  omega

/-- Totality of the descending lastAccessed order. -/
theorem lastAccessedDesc_total {V : Type} (a b : String × CacheEntry V) :
    lastAccessedDesc a b || lastAccessedDesc b a := by
  simp only [lastAccessedDesc, Bool.or_eq_true, decide_eq_true_eq]
  omega

/-- Every entry surviving cleanup passed the validity predicate. -/
theorem mem_cleanup_valid {V : Type} (truthy : V → Bool) (now : Int)
    (m : CacheMap V) :
    ∀ kv ∈ PersistentCache.cleanup truthy now m,
      isValidCacheEntry truthy now kv.2 = true := by
  intro kv hkv
  simp only [PersistentCache.cleanup] at hkv
  by_cases hlen : (cleanupPhase1 truthy now m).length > CACHE_CONFIG.maxItems
  · rw [if_pos hlen] at hkv
    have h1 : kv ∈ cleanupPhase1 truthy now m := (List.mem_filter.mp hkv).1
    exact (List.mem_filter.mp h1).2
  · rw [if_neg hlen] at hkv
    exact (List.mem_filter.mp hkv).2

/-- After cleanup the map holds at most maxItems entries (given the Map
invariant that keys are unique). -/
theorem cleanup_length_le {V : Type} (truthy : V → Bool) (now : Int)
    (m : CacheMap V) (hnd : (m.map Prod.fst).Nodup) :
    (PersistentCache.cleanup truthy now m).length ≤ CACHE_CONFIG.maxItems := by
  simp only [PersistentCache.cleanup]
  by_cases hlen : (cleanupPhase1 truthy now m).length > CACHE_CONFIG.maxItems
  · rw [if_pos hlen]
    set m1 := cleanupPhase1 truthy now m with hm1
    have hm1nd : (m1.map Prod.fst).Nodup := keysNodup_filter _ m hnd
    set s := m1.mergeSort lastAccessedDesc with hs
    have hperm : List.Perm s m1 := List.mergeSort_perm m1 lastAccessedDesc
    have hsnd : (s.map Prod.fst).Nodup := (hperm.map Prod.fst).nodup_iff.mpr hm1nd
    set D := (s.drop CACHE_CONFIG.maxItems).map Prod.fst with hD
    have hDnd : D.Nodup := by
      rw [hD, List.map_drop]
      exact List.Nodup.sublist (List.drop_sublist _ _) hsnd
    have hDsub : ∀ x ∈ D, x ∈ m1.map Prod.fst := by
      intro x hx
      have : x ∈ s.map Prod.fst := by
        rw [hD, List.map_drop] at hx
        exact List.mem_of_mem_drop hx
      exact (hperm.map Prod.fst).mem_iff.mp this
    have hDlen : D.length = m1.length - CACHE_CONFIG.maxItems := by
      rw [hD, List.length_map, List.length_drop, hperm.length_eq]
    have hcount : (m1.filter (fun kv => D.contains kv.1)).length = D.length := by
      have hmapeq : (m1.map Prod.fst).filter (fun k => D.contains k) =
          (m1.filter (fun kv => D.contains kv.1)).map Prod.fst :=
        List.filter_map Prod.fst m1
      have := length_filter_mem (m1.map Prod.fst) D hm1nd hDnd hDsub
      rw [hmapeq, List.length_map] at this
      exact this
    have hsplit := @List.length_eq_length_filter_add _ m1
      (fun kv => !(D.contains kv.1))
    simp only [Bool.not_not] at hsplit
    omega
  · rw [if_neg hlen]
    omega

/-- Capacity eviction removes entries only from the least-recently-accessed
end: an entry deleted in phase 2 has a lastAccessed timestamp no greater than
that of any retained entry. -/
theorem evicted_le_retained {V : Type} (truthy : V → Bool) (now : Int)
    (m : CacheMap V) (hnd : (m.map Prod.fst).Nodup) :
    ∀ e ∈ cleanupPhase1 truthy now m,
      e ∉ PersistentCache.cleanup truthy now m →
      ∀ r ∈ PersistentCache.cleanup truthy now m,
        e.2.lastAccessed ≤ r.2.lastAccessed := by
  intro e he hnot r hr
  simp only [PersistentCache.cleanup] at hnot hr
  by_cases hlen : (cleanupPhase1 truthy now m).length > CACHE_CONFIG.maxItems
  case neg =>
    rw [if_neg hlen] at hnot
    exact absurd he hnot
  case pos =>
    rw [if_pos hlen] at hnot hr
    set m1 := cleanupPhase1 truthy now m with hm1
    have hm1nd : (m1.map Prod.fst).Nodup := keysNodup_filter _ m hnd
    set s := m1.mergeSort lastAccessedDesc with hs
    have hperm : List.Perm s m1 := List.mergeSort_perm m1 lastAccessedDesc
    have hsnd : (s.map Prod.fst).Nodup := (hperm.map Prod.fst).nodup_iff.mpr hm1nd
    set D := (s.drop CACHE_CONFIG.maxItems).map Prod.fst with hD
    have hpw : s.Pairwise (fun a b => lastAccessedDesc a b) :=
      List.sorted_mergeSort lastAccessedDesc_trans lastAccessedDesc_total m1
    have happ : (s.take CACHE_CONFIG.maxItems ++
        s.drop CACHE_CONFIG.maxItems).Pairwise (fun a b => lastAccessedDesc a b) := by
      rw [List.take_append_drop]
      exact hpw
    have hsplitpw := List.pairwise_append.mp happ
    have hcross := hsplitpw.2.2
    have heD : e.1 ∈ D := by
      by_contra hcon
      exact hnot (List.mem_filter.mpr ⟨he, by simpa using hcon⟩)
    have hrm1 : r ∈ m1 := (List.mem_filter.mp hr).1
    have hrD : r.1 ∉ D := by
      have := (List.mem_filter.mp hr).2
      simpa using this
    have hes : e ∈ s := hperm.mem_iff.mpr he
    have hrs : r ∈ s := hperm.mem_iff.mpr hrm1
    have hkeys : ((s.take CACHE_CONFIG.maxItems).map Prod.fst ++ D).Nodup := by
      rw [hD, ← List.map_append, List.take_append_drop]
      exact hsnd
    have hedrop : e ∈ s.drop CACHE_CONFIG.maxItems := by
      rcases List.mem_append.mp
        (by rw [List.take_append_drop]; exact hes :
          e ∈ s.take CACHE_CONFIG.maxItems ++ s.drop CACHE_CONFIG.maxItems) with h | h
      · exfalso
        have hin : e.1 ∈ (s.take CACHE_CONFIG.maxItems).map Prod.fst :=
          List.mem_map_of_mem Prod.fst h
        exact (List.disjoint_of_nodup_append hkeys) hin heD
      · exact h
    have hrtake : r ∈ s.take CACHE_CONFIG.maxItems := by
      rcases List.mem_append.mp
        (by rw [List.take_append_drop]; exact hrs :
          r ∈ s.take CACHE_CONFIG.maxItems ++ s.drop CACHE_CONFIG.maxItems) with h | h
      · exact h
      · exact absurd (List.mem_map_of_mem Prod.fst h) (by rw [← hD] at *; exact hrD)
    have := hcross r hrtake e hedrop
    simpa [lastAccessedDesc] using this

/-! ## Theorems -/

/-- C10: convertCurrency ignores its fromCurrency argument entirely — for any
rate-table state, amount and target, any two source currencies give the same
result; with no table loaded, or with a target code missing from the table,
the amount is returned unchanged. -/
theorem convertCurrency_fromCurrency_independent :
    (∀ rates amount f1 f2 t, convertCurrency rates amount f1 t =
      convertCurrency rates amount f2 t) ∧
    (∀ amount f t, convertCurrency none amount f t = amount) ∧
    (∀ table amount f t, table.lookup (jsToLower t) = none →
      convertCurrency (some table) amount f t = amount) := by
  refine ⟨fun _ _ _ _ _ => rfl, fun _ _ _ => rfl, fun table amount f t h => ?_⟩
  simp [convertCurrency, h]

/-- Witness for the hypothesis-bearing conjunct of
convertCurrency_fromCurrency_independent, at a table without the target. -/
theorem convertCurrency_fromCurrency_independent_witness :
    convertCurrency (some [("usd", (7 : Rat) / 50)]) 100 "cny" "aud" = 100 :=
  convertCurrency_fromCurrency_independent.2.2 _ 100 "cny" "aud" (by decide)

/-- C5: over an exact-rational reading of the literals of calculateAgentFee,
price 100 yields 102.38 for superbuy, 102 for cssbuy and 103 for every agent
outside the recognized set; the function is total over agent strings. The
JavaScript source computes in IEEE-754 doubles, where 100 * 1.0238 is
102.38000000000001, so the superbuy example in the claim (and in the JSDoc
of the function itself) fails on the running code. -/
theorem calculateAgentFee_examples :
    calculateAgentFee 100 "superbuy" = 102.38 ∧
    calculateAgentFee 100 "cssbuy" = 102 ∧
    calculateAgentFee 100 "unknown-agent" = 103 := by
  refine ⟨?_, ?_, ?_⟩ <;> simp +decide [calculateAgentFee] <;> norm_num

/-- C4: selectPlatformPrice always returns a well-formed result; when at
least one platform has a price other than "N/A" together with a link, the
available platform of numerically lowest priority wins (in particular with
taobao unavailable and weidian available the weidian entry is returned), and
when none qualifies the priority-1 platform entry (taobao) is returned
verbatim, unavailable price included. -/
theorem selectPlatformPrice_spec (prices : Prices) :
    (isAvailable prices.taobao = true →
      selectPlatformPrice prices = SelectedPrice.available
        { platform := "taobao", price := prices.taobao.price,
          link := prices.taobao.link, priority := 1 }) ∧
    (isAvailable prices.taobao = false → isAvailable prices.weidian = true →
      selectPlatformPrice prices = SelectedPrice.available
        { platform := "weidian", price := prices.weidian.price,
          link := prices.weidian.link, priority := 2 }) ∧
    (isAvailable prices.taobao = false → isAvailable prices.weidian = false →
      selectPlatformPrice prices = SelectedPrice.fallback prices.taobao) := by
  refine ⟨fun h1 => ?_, fun h1 h2 => ?_, fun h1 h2 => ?_⟩
  · cases h2 : isAvailable prices.weidian <;>
      simp +decide [selectPlatformPrice, availablePrices, platformEntries, h1, h2,
        priorityOf, PLATFORM_CONFIG_platforms, mergeSort_pair, List.lookup]
  · simp +decide [selectPlatformPrice, availablePrices, platformEntries, h1, h2,
      priorityOf, PLATFORM_CONFIG_platforms, mergeSort_pair, List.lookup]
  · simp +decide [selectPlatformPrice, availablePrices, platformEntries, h1, h2,
      priorityOf, PLATFORM_CONFIG_platforms, mergeSort_pair, List.lookup]

/-- C1: get returns a stored payload only while the entry age is below
maxAge; an entry past the threshold yields none with no further set needed,
and a missing key also yields none (the function is total, nothing is
thrown). -/
theorem get_respects_ttl {V : Type} (truthy : V → Bool) (now : Int)
    (m : CacheMap V) (key : String) :
    (∀ v, (PersistentCache.get truthy now m key).1 = some v →
      ∃ e, m.lookup key = some e ∧ v = e.data ∧
        now - e.timestamp < CACHE_CONFIG.maxAge) ∧
    (∀ e, m.lookup key = some e → CACHE_CONFIG.maxAge ≤ now - e.timestamp →
      (PersistentCache.get truthy now m key).1 = none) ∧
    (m.lookup key = none → (PersistentCache.get truthy now m key).1 = none) := by
  refine ⟨?_, ?_, ?_⟩
  · intro v hv
    cases hl : m.lookup key with
    | none => simp [PersistentCache.get, hl] at hv
    | some e =>
      by_cases hval : isValidCacheEntry truthy now e = true
      · refine ⟨e, rfl, ?_, ?_⟩
        · simp [PersistentCache.get, hl, hval] at hv
          exact hv.symm
        · have hv2 := hval
          simp [isValidCacheEntry] at hv2
          exact hv2.1.2
      · simp [PersistentCache.get, hl, hval] at hv
  · intro e hl hage
    have hnotlt : ¬ (now - e.timestamp < CACHE_CONFIG.maxAge) := by omega
    simp [PersistentCache.get, hl, isValidCacheEntry, hnotlt]
  · intro hl
    simp [PersistentCache.get, hl]

/-- Witness for get_respects_ttl: a concrete entry exactly at the 7-day
threshold is reported absent. -/
theorem get_respects_ttl_witness :
    (PersistentCache.get (fun v : Nat => v != 0) 604800001
      [("k", { data := 5, timestamp := 1, lastAccessed := 1 })] "k").1 = none :=
  (get_respects_ttl (fun v : Nat => v != 0) 604800001
      [("k", { data := 5, timestamp := 1, lastAccessed := 1 })] "k").2.1
    { data := 5, timestamp := 1, lastAccessed := 1 } (by decide) (by decide)

/-- Witness for selectPlatformPrice_spec at the concrete example of the
claim: taobao (priority 1) unavailable, weidian (priority 2) available. -/
theorem selectPlatformPrice_spec_witness :
    selectPlatformPrice
      { taobao := { price := "N/A", link := none },
        weidian := { price := "10", link := some "shop1.v.weidian.com/item.html?itemID=1" } } =
    SelectedPrice.available
      { platform := "weidian", price := "10",
        link := some "shop1.v.weidian.com/item.html?itemID=1", priority := 2 } :=
  (selectPlatformPrice_spec _).2.1 (by decide) (by decide)

/-- C2: after cleanup the cache holds at most maxItems (1000) entries, and
capacity eviction removes entries strictly from the least-recently-accessed
end — every entry evicted in phase 2 has a lastAccessed timestamp no greater
than that of every retained entry (survivors are the most-recently-accessed,
true LRU). The hypothesis is the Map invariant that keys are unique. -/
theorem cleanup_capacity_lru {V : Type} (truthy : V → Bool) (now : Int)
    (m : CacheMap V) (hnd : (m.map Prod.fst).Nodup) :
    (PersistentCache.cleanup truthy now m).length ≤ CACHE_CONFIG.maxItems ∧
    ∀ e ∈ cleanupPhase1 truthy now m,
      e ∉ PersistentCache.cleanup truthy now m →
      ∀ r ∈ PersistentCache.cleanup truthy now m,
        e.2.lastAccessed ≤ r.2.lastAccessed :=
  ⟨cleanup_length_le truthy now m hnd, evicted_le_retained truthy now m hnd⟩

/-- Witness for cleanup_capacity_lru on a concrete two-entry cache. -/
theorem cleanup_capacity_lru_witness :
    (PersistentCache.cleanup (fun v : Nat => v != 0) 10
      [("a", { data := 2, timestamp := 3, lastAccessed := 4 }),
       ("b", { data := 5, timestamp := 6, lastAccessed := 7 })]).length ≤
        CACHE_CONFIG.maxItems ∧
    ∀ e ∈ cleanupPhase1 (fun v : Nat => v != 0) 10
      [("a", { data := 2, timestamp := 3, lastAccessed := 4 }),
       ("b", { data := 5, timestamp := 6, lastAccessed := 7 })],
      e ∉ PersistentCache.cleanup (fun v : Nat => v != 0) 10
        [("a", { data := 2, timestamp := 3, lastAccessed := 4 }),
         ("b", { data := 5, timestamp := 6, lastAccessed := 7 })] →
      ∀ r ∈ PersistentCache.cleanup (fun v : Nat => v != 0) 10
        [("a", { data := 2, timestamp := 3, lastAccessed := 4 }),
         ("b", { data := 5, timestamp := 6, lastAccessed := 7 })],
        e.2.lastAccessed ≤ r.2.lastAccessed :=
  cleanup_capacity_lru (fun v : Nat => v != 0) 10
    [("a", { data := 2, timestamp := 3, lastAccessed := 4 }),
     ("b", { data := 5, timestamp := 6, lastAccessed := 7 })] (by decide)

/-- C8: cleanup is idempotent under an unchanged clock — running it a second
time with no intervening writes (same now, so no entry crosses its expiry
threshold in between) changes nothing, hence deletes zero entries. The
hypothesis is the Map invariant that keys are unique. -/
theorem cleanup_idempotent {V : Type} (truthy : V → Bool) (now : Int)
    (m : CacheMap V) (hnd : (m.map Prod.fst).Nodup) :
    PersistentCache.cleanup truthy now (PersistentCache.cleanup truthy now m) =
      PersistentCache.cleanup truthy now m := by
  have hval := mem_cleanup_valid truthy now m
  have hlen := cleanup_length_le truthy now m hnd
  have h1 : cleanupPhase1 truthy now (PersistentCache.cleanup truthy now m) =
      PersistentCache.cleanup truthy now m :=
    List.filter_eq_self.mpr hval
  generalize hr : PersistentCache.cleanup truthy now m = r at h1 hlen ⊢
  simp only [PersistentCache.cleanup, h1]
  have hnot : ¬ r.length > CACHE_CONFIG.maxItems := by omega
  rw [if_neg hnot]

/-- C3: when initialize reads a persisted metadata record whose version
differs from CACHE_CONFIG.version, the cache ends up empty no matter what
entries were persisted — the persisted map and metadata are removed before
any entry is loaded, so the later load sees nothing. -/
theorem initialize_version_migration {V : Type} (truthy : V → Bool) (now : Int)
    (env : InitEnv V) (meta : CacheMetadata)
    (hm : env.store.cacheMetadata = some meta)
    (hv : meta.version ≠ CACHE_CONFIG.version)
    (hread : env.metadataReadFails = false) :
    (PersistentCache.initializeRun truthy now env).data = [] ∧
    (env.removeFails = false →
      (PersistentCache.initializeRun truthy now env).store.productCache = none) := by
  cases hrm : env.removeFails <;>
  cases hpr : env.productReadFails <;>
  cases hmw : env.metadataWriteFails <;>
    simp [PersistentCache.initializeRun, initializeRest, finishInitialize,
      cleanupAndPersist, PersistentCache.clearCache, PersistentCache.cleanup,
      cleanupPhase1, hread, hm, hv, hrm, hpr, hmw,
      apply_ite InitResult.data, apply_ite InitResult.store,
      apply_ite Storage.productCache, ite_self]

/-- Witness for initialize_version_migration: a store persisting one entry
under metadata version 0.9.0 initializes to an empty cache with the
persisted map removed. -/
theorem initialize_version_migration_witness :
    (PersistentCache.initializeRun (fun v : Nat => v != 0) 1
      { store := { productCache :=
                     some [("k", { data := 9, timestamp := 1, lastAccessed := 1 })],
                   cacheMetadata := some { version := "0.9.0", lastCleanup := 0 } },
        metadataReadFails := false, removeFails := false,
        productReadFails := false, metadataWriteFails := false,
        persistFails := false }).data = [] ∧
    (PersistentCache.initializeRun (fun v : Nat => v != 0) 1
      { store := { productCache :=
                     some [("k", { data := 9, timestamp := 1, lastAccessed := 1 })],
                   cacheMetadata := some { version := "0.9.0", lastCleanup := 0 } },
        metadataReadFails := false, removeFails := false,
        productReadFails := false, metadataWriteFails := false,
        persistFails := false }).store.productCache = none :=
  ⟨(initialize_version_migration _ 1 _ _ rfl (by decide) rfl).1,
   (initialize_version_migration _ 1 _ _ rfl (by decide) rfl).2 rfl⟩

/-- C6 counterexample: a run of initialize whose metadata read rejects ends
marked initialized but persists no metadata record at all, so it is false
that every run, errors included, concludes by persisting the refreshed
metadata to the durable store. -/
theorem initialize_error_skips_metadata_persist :
    (PersistentCache.initializeRun (fun v : Nat => v != 0) 0
      { store := { productCache := none, cacheMetadata := none },
        metadataReadFails := true, removeFails := false,
        productReadFails := false, metadataWriteFails := false,
        persistFails := false }).initialized = true ∧
    (PersistentCache.initializeRun (fun v : Nat => v != 0) 0
      { store := { productCache := none, cacheMetadata := none },
        metadataReadFails := true, removeFails := false,
        productReadFails := false, metadataWriteFails := false,
        persistFails := false }).metadataPersisted = false ∧
    (PersistentCache.initializeRun (fun v : Nat => v != 0) 0
      { store := { productCache := none, cacheMetadata := none },
        metadataReadFails := true, removeFails := false,
        productReadFails := false, metadataWriteFails := false,
        persistFails := false }).store.cacheMetadata = none := by
  refine ⟨rfl, rfl, rfl⟩

/-- C6 amended: every run of initialize — error runs included — concludes by
marking the cache initialized, and every run in which no awaited storage
call rejects also concludes by persisting the refreshed metadata record; a
run that errors partway skips the metadata persist. -/
theorem initialize_always_initialized {V : Type} (truthy : V → Bool)
    (now : Int) (env : InitEnv V) :
    (PersistentCache.initializeRun truthy now env).initialized = true ∧
    (env.metadataReadFails = false → env.removeFails = false →
     env.productReadFails = false → env.metadataWriteFails = false →
     (PersistentCache.initializeRun truthy now env).metadataPersisted = true) := by
  constructor
  · simp only [PersistentCache.initializeRun, initializeRest, finishInitialize,
      cleanupAndPersist, apply_ite InitResult.initialized, ite_self]
  · intro h1 h2 h3 h4
    simp only [PersistentCache.initializeRun, initializeRest, finishInitialize,
      cleanupAndPersist, h1, h2, h3, h4, Bool.false_eq_true, if_false,
      apply_ite InitResult.metadataPersisted, ite_self]

/-- Witness for initialize_always_initialized on a fault-free run. -/
theorem initialize_always_initialized_witness :
    (PersistentCache.initializeRun (fun v : Nat => v != 0) 2
      { store := { productCache := none, cacheMetadata := none },
        metadataReadFails := false, removeFails := false,
        productReadFails := false, metadataWriteFails := false,
        persistFails := false }).initialized = true ∧
    (PersistentCache.initializeRun (fun v : Nat => v != 0) 2
      { store := { productCache := none, cacheMetadata := none },
        metadataReadFails := false, removeFails := false,
        productReadFails := false, metadataWriteFails := false,
        persistFails := false }).metadataPersisted = true :=
  ⟨(initialize_always_initialized (fun v : Nat => v != 0) 2 _).1,
   (initialize_always_initialized (fun v : Nat => v != 0) 2 _).2 rfl rfl rfl rfl⟩

/-- C7 counterexample: the content-script import of a file with the running
version but no items field reports an error to the user, yet does not leave
the cache as it was — the in-memory map has been emptied and the persisted
records removed before the iteration over the missing items throws. -/
theorem contentImport_missing_items_clears_cache :
    (contentImportCache 5
        { version := some "1.0.0", items := none }
        [("k", { data := 7, timestamp := 1, lastAccessed := 1 })]
        { productCache :=
            some [("k", { data := 7, timestamp := 1, lastAccessed := 1 })],
          cacheMetadata := some { version := "1.0.0", lastCleanup := 0 } }).outcome
      = ImportOutcome.errorReported ∧
    (contentImportCache 5
        { version := some "1.0.0", items := none }
        [("k", { data := 7, timestamp := 1, lastAccessed := 1 })]
        { productCache :=
            some [("k", { data := 7, timestamp := 1, lastAccessed := 1 })],
          cacheMetadata := some { version := "1.0.0", lastCleanup := 0 } }).data
      = [] ∧
    [("k", ({ data := 7, timestamp := 1, lastAccessed := 1 } : CacheEntry Nat))] ≠
      ([] : CacheMap Nat) ∧
    (contentImportCache 5
        { version := some "1.0.0", items := none }
        [("k", { data := 7, timestamp := 1, lastAccessed := 1 })]
        { productCache :=
            some [("k", { data := 7, timestamp := 1, lastAccessed := 1 })],
          cacheMetadata := some { version := "1.0.0", lastCleanup := 0 } }).store.productCache
      = none := by
  refine ⟨rfl, rfl, by decide, rfl⟩

/-- C7 amended: every malformed import is alerted to the user, but the
cache is left unmodified only in some of the cases. The content-script one
leaves both the map and the store untouched when the file version
differs from the running one or is missing, while a matching-version file
without items is rejected only after the cache has been cleared. The popup
one leaves the store untouched when version or items is missing or falsy,
but it does not compare the version to the running one: a file with any
truthy version and items present is imported, replacing the persisted cache
and metadata. -/
theorem importCache_malformed_behavior {V : Type} (now : Int)
    (file : ImportData V) (m : CacheMap V) (st : Storage V) :
    (¬ file.version = some CACHE_CONFIG.version →
      contentImportCache now file m st =
        { data := m, store := st, outcome := ImportOutcome.errorReported }) ∧
    (file.version = some CACHE_CONFIG.version → file.items = none →
      contentImportCache now file m st =
        { data := [], store := { productCache := none, cacheMetadata := none },
          outcome := ImportOutcome.errorReported }) ∧
    (jsTruthyStr file.version = false ∨ file.items = none →
      popupImportCache now file st =
        { store := st, outcome := ImportOutcome.errorReported }) ∧
    (jsTruthyStr file.version = true → ∀ items, file.items = some items →
      popupImportCache now file st =
        { store := { productCache := some items,
                     cacheMetadata := some { version := file.version.getD "",
                                             lastCleanup := now } },
          outcome := ImportOutcome.success }) := by
  refine ⟨fun h => ?_, fun h1 h2 => ?_, fun h => ?_, fun h1 items h2 => ?_⟩
  · have hb : (file.version == some CACHE_CONFIG.version) = false :=
      beq_eq_false_iff_ne.mpr h
    simp [contentImportCache, hb]
  · simp [contentImportCache, h1, h2, PersistentCache.clearCache]
  · rcases h with h | h <;> simp [popupImportCache, h]
  · simp [popupImportCache, h1, h2]

/-- Witness for importCache_malformed_behavior: the popup import of a file
with no version field reports the error and leaves storage untouched. -/
theorem importCache_malformed_behavior_witness :
    popupImportCache 3 ({ version := none, items := some [] } : ImportData Nat)
      { productCache := none, cacheMetadata := none } =
      { store := { productCache := none, cacheMetadata := none },
        outcome := ImportOutcome.errorReported } :=
  (importCache_malformed_behavior 3 { version := none, items := some [] }
      [] { productCache := none, cacheMetadata := none }).2.2.1
    (Or.inl (by decide))

/-- C9: fetchProductDetails never rejects — for every environment it
resolves to some SelectedPrice value (a shape that always carries both a
price and a link field), and when the raced page fetch times out or any
fetch or parse step throws, the resolved value is the fallback with price
"N/A" and no link. -/
theorem fetchProductDetails_never_rejects (env : PageFetch) :
    (∃ v, fetchProductDetails env = Except.ok v) ∧
    (env = PageFetch.failed →
      fetchProductDetails env =
        Except.ok (SelectedPrice.fallback { price := "N/A", link := none })) := by
  constructor
  · cases env with
    | failed => exact ⟨_, rfl⟩
    | ok tm wm => exact ⟨_, rfl⟩
  · intro h
    subst h
    rfl

/-- Witness for fetchProductDetails_never_rejects at the failed fetch. -/
theorem fetchProductDetails_never_rejects_witness :
    fetchProductDetails PageFetch.failed =
      Except.ok (SelectedPrice.fallback { price := "N/A", link := none }) :=
  (fetchProductDetails_never_rejects PageFetch.failed).2 rfl

/-- Witness for cleanup_idempotent on a concrete one-entry cache. -/
theorem cleanup_idempotent_witness :
    PersistentCache.cleanup (fun v : Nat => v != 0) 5
      (PersistentCache.cleanup (fun v : Nat => v != 0) 5
        [("x", { data := 1, timestamp := 2, lastAccessed := 2 })]) =
    PersistentCache.cleanup (fun v : Nat => v != 0) 5
      [("x", { data := 1, timestamp := 2, lastAccessed := 2 })] :=
  cleanup_idempotent (fun v : Nat => v != 0) 5
    [("x", { data := 1, timestamp := 2, lastAccessed := 2 })] (by decide)

end Easyupoo
